import Mathlib

/-!
Verification of the PandasPackage plugin (a pandas node package for a
node-based visual graph editor).

Shallow embedding conventions:
* Python strings are Lean `String`s; character-level operations
  (`str.strip`, `re.sub`) work on `String.data` (`List Char`).  The
  `\w` word-character class and `str.isdigit` are modelled at the
  ASCII level (`Char.isAlphanum`, `Char.isDigit`).
* pandas DataFrames are modelled as a list of column labels plus a
  list of rows (`DataFrame α`); `df.empty` is true when either axis
  has length zero, as in pandas.
* A function that can `raise ValueError` returns `Except String _`.
* The host graph engine's pin API (`createOutputPin`, `getUniqPinName`,
  `getPinByName`, `pin.kill`) is not part of this repository; those
  operations are modelled from the spec's assumed interface
  ("create pin, get/set data, serialize/deserialize") and from the
  semantics their names and call sites demand (a fresh pin name must
  not collide with an existing pin of the node).
-/

namespace PandasPackage

/-! ### Python string primitives -/

/-- Python whitespace characters recognised by `str.strip()` (ASCII range). -/
def pyIsSpace (c : Char) : Bool :=
  c = ' ' || c = '\t' || c = '\n' || c = '\r' || c = '\x0b' || c = '\x0c'

/-- `l` with leading and trailing characters satisfying `bad` removed
(the list-level core of Python's `str.strip(chars)`). -/
def pyStripList (bad : Char → Bool) (l : List Char) : List Char :=
  ((l.dropWhile bad).reverse.dropWhile bad).reverse

/-- Python's `s.strip()` (whitespace strip). -/
def pyStripWS (s : String) : String :=
  ⟨pyStripList pyIsSpace s.data⟩

/-- Python truthiness test `not s or not s.strip()`:
the string is empty or whitespace-only. -/
def pyBlank (s : String) : Bool :=
  decide (s = "") || decide (pyStripWS s = "")

theorem mem_of_mem_dropWhile {α : Type} {p : α → Bool} {l : List α} {a : α}
    (h : a ∈ l.dropWhile p) : a ∈ l := by
  induction l with
  | nil => simpa using h
  | cons x xs ih =>
    rw [List.dropWhile_cons] at h
    by_cases hx : p x = true
    · simp only [hx, if_true] at h
      exact List.mem_cons_of_mem _ (ih h)
    · simp only [hx] at h
      simpa using h

theorem mem_of_mem_pyStripList {bad : Char → Bool} {l : List Char} {a : Char}
    (h : a ∈ pyStripList bad l) : a ∈ l := by
  unfold pyStripList at h
  rw [List.mem_reverse] at h
  have h1 : a ∈ (l.dropWhile bad).reverse := mem_of_mem_dropWhile h
  rw [List.mem_reverse] at h1
  exact mem_of_mem_dropWhile h1

/-! ### `HyperExcelRead._sanitizePinName`
(src/PandasPackage/Nodes/HyperExcelReadNode.py, lines 57-84) -/

/-- A character matched by the regex class `[\w\-]` (word character or
hyphen), ASCII level. -/
def isWordChar (c : Char) : Bool :=
  c.isAlphanum || c = '_'

/-- One character of `re.sub(r'[^\w\-]', '_', sheet_name)`. -/
def sanitizeChar (c : Char) : Char :=
  if isWordChar c || c = '-' then c else '_'

/-- The character set of `sanitized.strip('_.')`. -/
def isStripChar (c : Char) : Bool :=
  c = '_' || c = '.'

/-- The final step of `_sanitizePinName`: prefix `"sheet_"` when the
name would start with a decimal digit. -/
def digitGuard (t : List Char) : List Char :=
  match t with
  | [] => t
  | c :: _ => if c.isDigit then "sheet_".data ++ t else t

/-- `_sanitizePinName` on the characters of the sheet name.  `none`
stands for a sheet name that is Python `None` or not a string. -/
def sanitizePinNameList (x : Option (List Char)) : List Char :=
  match x with
  | none => "sheet".data
  | some s =>
    if s = [] then "sheet".data
    else
      let t := pyStripList isStripChar (s.map sanitizeChar)
      digitGuard (if t = [] then "sheet".data else t)

/-- `HyperExcelRead._sanitizePinName`. -/
def sanitizePinName (x : Option String) : String :=
  ⟨sanitizePinNameList (x.map String.data)⟩

theorem sanitizeChar_ok (c : Char) :
    isWordChar (sanitizeChar c) = true ∨ sanitizeChar c = '-' := by
  unfold sanitizeChar
  by_cases h : (isWordChar c || c = '-') = true
  · rw [if_pos h]
    rcases Bool.or_eq_true_iff.mp h with h1 | h1
    · exact Or.inl h1
    · exact Or.inr (by simpa using h1)
  · rw [if_neg h]
    exact Or.inl (by decide)

theorem sheet_chars_ok :
    ∀ c ∈ "sheet".data, isWordChar c = true ∨ c = '-' := by decide

theorem sheet_underscore_chars_ok :
    ∀ c ∈ "sheet_".data, isWordChar c = true ∨ c = '-' := by decide

theorem digitGuard_ne_nil {t : List Char} (h : t ≠ []) : digitGuard t ≠ [] := by
  match t with
  | [] => exact absurd rfl h
  | c :: rest =>
    unfold digitGuard
    by_cases hc : c.isDigit = true
    · simp [hc]
    · simp [hc]

theorem mem_digitGuard {t : List Char} {c : Char} (h : c ∈ digitGuard t) :
    c ∈ "sheet_".data ∨ c ∈ t := by
  match t with
  | [] => exact Or.inr (by simpa [digitGuard] using h)
  | d :: rest =>
    simp only [digitGuard] at h
    by_cases hd : d.isDigit = true
    · rw [if_pos hd] at h
      exact List.mem_append.mp h
    · rw [if_neg hd] at h
      exact Or.inr h

theorem digitGuard_head_not_digit {t : List Char} {c : Char}
    (h : (digitGuard t).head? = some c) : c.isDigit = false := by
  match t with
  | [] => simp [digitGuard] at h
  | d :: rest =>
    simp only [digitGuard] at h
    by_cases hd : d.isDigit = true
    · rw [if_pos hd] at h
      have hs : c = 's' := by
        have h2 : (some 's' : Option Char) = some c := h
        exact (Option.some_inj.mp h2).symm
      rw [hs]; decide
    · rw [if_neg hd] at h
      have hc : c = d := (Option.some_inj.mp (by simpa using h)).symm
      rw [hc]
      simpa using hd

theorem sanitizePinNameList_some (s : List Char) (hs : ¬s = []) :
    sanitizePinNameList (some s) =
      digitGuard
        (if pyStripList isStripChar (s.map sanitizeChar) = [] then "sheet".data
         else pyStripList isStripChar (s.map sanitizeChar)) := by
  simp [sanitizePinNameList, hs]

/-- **C1.** `_sanitizePinName` always yields a non-empty identifier whose
first character is not a decimal digit and whose characters are word
characters or hyphens; a `None`/non-string/empty input, and any input
whose sanitized form strips away to nothing, yields the fixed name
`"sheet"`. -/
theorem sanitizePinName_valid (x : Option String) :
    sanitizePinName x ≠ "" ∧
    (∀ c ∈ (sanitizePinName x).data, isWordChar c = true ∨ c = '-') ∧
    (∀ c, (sanitizePinName x).data.head? = some c → c.isDigit = false) ∧
    ((x = none ∨ x = some "" ∨
        (∃ s, x = some s ∧ pyStripList isStripChar (s.data.map sanitizeChar) = [])) →
      sanitizePinName x = "sheet") := by
  have hsheet : ∀ c ∈ "sheet".data, isWordChar c = true ∨ c = '-' := sheet_chars_ok
  have hchar : ∀ y, (∀ c ∈ sanitizePinNameList y, isWordChar c = true ∨ c = '-') ∧
      sanitizePinNameList y ≠ [] ∧
      (∀ c, (sanitizePinNameList y).head? = some c → c.isDigit = false) := by
    intro y
    cases y with
    | none =>
      refine ⟨fun c hc => hsheet c hc, by decide, ?_⟩
      intro c hc
      have h2 : (some 's' : Option Char) = some c := hc
      rw [(Option.some_inj.mp h2).symm]; decide
    | some s =>
      by_cases hs : s = []
      · subst hs
        refine ⟨fun c hc => hsheet c hc, by decide, ?_⟩
        intro c hc
        have h2 : (some 's' : Option Char) = some c := hc
        rw [(Option.some_inj.mp h2).symm]; decide
      · rw [sanitizePinNameList_some s hs]
        set t0 := pyStripList isStripChar (s.map sanitizeChar) with ht0
        set t1 := if t0 = [] then "sheet".data else t0 with ht1
        have hmem1 : ∀ d ∈ t1, isWordChar d = true ∨ d = '-' := by
          intro d hd
          rw [ht1] at hd
          by_cases ht : t0 = []
          · exact hsheet d (by simpa [ht] using hd)
          · rw [if_neg ht] at hd
            have hd2 : d ∈ s.map sanitizeChar := mem_of_mem_pyStripList hd
            rcases List.mem_map.mp hd2 with ⟨e, _, he2⟩
            rw [← he2]
            exact sanitizeChar_ok e
        have hne : t1 ≠ [] := by
          rw [ht1]
          by_cases ht : t0 = []
          · simp [ht]
          · simpa [ht]
        refine ⟨?_, digitGuard_ne_nil hne, fun c hc => digitGuard_head_not_digit hc⟩
        intro c hc
        rcases mem_digitGuard hc with h1 | h1
        · exact sheet_underscore_chars_ok c h1
        · exact hmem1 c h1
  refine ⟨?_, ?_, ?_, ?_⟩
  · intro h
    have hd : sanitizePinNameList (x.map String.data) = [] := by
      have := congrArg String.data h
      simpa [sanitizePinName] using this
    exact (hchar (x.map String.data)).2.1 hd
  · intro c hc
    exact (hchar (x.map String.data)).1 c (by simpa [sanitizePinName] using hc)
  · intro c hc
    exact (hchar (x.map String.data)).2.2 c (by simpa [sanitizePinName] using hc)
  · intro h
    rcases h with h | h | ⟨s, hx, hstrip⟩
    · rw [h]; rfl
    · rw [h]; rfl
    · rw [hx]
      show String.mk (sanitizePinNameList (some s.data)) = "sheet"
      by_cases hs : s.data = []
      · simp [sanitizePinNameList, hs]
      · rw [sanitizePinNameList_some s.data hs, hstrip]
        rfl

/-- Witness for C1: `"__"` sanitizes and strips away to nothing, so the
result is the fixed name `"sheet"`. -/
theorem sanitizePinName_valid_witness :
    ((some "__" : Option String) = none ∨ (some "__" : Option String) = some "" ∨
      (∃ s, (some "__" : Option String) = some s ∧
        pyStripList isStripChar (s.data.map sanitizeChar) = [])) ∧
    sanitizePinName (some "__") = "sheet" := by
  refine ⟨Or.inr (Or.inr ⟨"__", rfl, by decide⟩), ?_⟩
  exact (sanitizePinName_valid (some "__")).2.2.2 (Or.inr (Or.inr ⟨"__", rfl, by decide⟩))

/-! ### The pandas DataFrame model

A DataFrame is a list of column labels and a list of rows; cell values
are a type parameter (`ℚ` for the numeric frames compared against a
float threshold, `String` for the object frames tested with `isin`).
`pd.DataFrame()` is `⟨[], []⟩`; `df.empty` is true when either axis has
length zero. -/

structure DataFrame (α : Type) where
  cols : List String
  rows : List (List α)
deriving DecidableEq, Repr

/-- pandas `df.empty`. -/
def DataFrame.isEmptyDF {α : Type} (df : DataFrame α) : Bool :=
  df.rows.isEmpty || df.cols.isEmpty

/-- `pd.DataFrame()`. -/
def emptyDF (α : Type) : DataFrame α := ⟨[], []⟩

/-- The positional index of a column label (`data[column_name]` selects
the column with this label; `column_name not in data.columns` is the
`none` case). -/
def DataFrame.colIdx {α : Type} (df : DataFrame α) (c : String) : Option Nat :=
  df.cols.findIdx? (fun x => x = c)

/-- The cell of `row` in column position `i`. -/
def cellAt {α : Type} [Inhabited α] (row : List α) (i : Nat) : α :=
  row.getD i default

/-! ### `DataFilterLib.FilterByCondition`
(src/PandasPackage/FunctionLibraries/DataFilterLib.py, lines 22-61) -/

/-- The comparison the claim describes: `x op threshold` for the six
operator strings, false otherwise.  (Spec-side predicate: the source
picks the pandas comparison branch by the same six strings.) -/
def condHolds : String → ℚ → ℚ → Bool
  | "<", x, t => decide (x < t)
  | ">", x, t => decide (t < x)
  | "<=", x, t => decide (x ≤ t)
  | ">=", x, t => decide (t ≤ x)
  | "==", x, t => decide (x = t)
  | "!=", x, t => decide (¬x = t)
  | _, _, _ => false

/-- `DataFilterLib.FilterByCondition`: the branch structure follows the
source line by line (empty check, column check, six operator branches,
`ValueError` otherwise).  The source's error messages wrap the column
name and the operator in single quotes; the quotes are elided here. -/
def FilterByCondition (data : Option (DataFrame ℚ)) (column_name operator : String)
    (threshold : ℚ) : Except String (DataFrame ℚ) :=
  match data with
  | none => .ok (emptyDF ℚ)
  | some df =>
    if df.isEmptyDF then .ok (emptyDF ℚ)
    else
      match df.colIdx column_name with
      | none => .error ("Column " ++ column_name ++ " not found in DataFrame")
      | some i =>
        if operator = "<" then
          .ok ⟨df.cols, df.rows.filter (fun r => decide (cellAt r i < threshold))⟩
        else if operator = ">" then
          .ok ⟨df.cols, df.rows.filter (fun r => decide (threshold < cellAt r i))⟩
        else if operator = "<=" then
          .ok ⟨df.cols, df.rows.filter (fun r => decide (cellAt r i ≤ threshold))⟩
        else if operator = ">=" then
          .ok ⟨df.cols, df.rows.filter (fun r => decide (threshold ≤ cellAt r i))⟩
        else if operator = "==" then
          .ok ⟨df.cols, df.rows.filter (fun r => decide (cellAt r i = threshold))⟩
        else if operator = "!=" then
          .ok ⟨df.cols, df.rows.filter (fun r => decide (¬cellAt r i = threshold))⟩
        else .error ("Unsupported operator " ++ operator)

/-! ### `DataFilterLib.FilterByList`
(src/PandasPackage/FunctionLibraries/DataFilterLib.py, lines 72-113) -/

/-- `[v.strip() for v in value_list.split(",") if v.strip()]`. -/
def parseValueList (value_list : String) : List String :=
  ((value_list.splitOn ",").map pyStripWS).filter (fun v => decide (¬v = ""))

/-- `DataFilterLib.FilterByList` over an object (string-valued) frame. -/
def FilterByList (data : Option (DataFrame String)) (column_name value_list : String)
    (inverse : Bool) : Except String (DataFrame String) :=
  match data with
  | none => .ok (emptyDF String)
  | some df =>
    if df.isEmptyDF then .ok (emptyDF String)
    else
      match df.colIdx column_name with
      | none => .error ("Column " ++ column_name ++ " not found in DataFrame")
      | some i =>
        if pyStripWS value_list = "" then .error "Value list is empty"
        else
          let values := parseValueList value_list
          if values = [] then .error "No valid values found in list"
          else if inverse then
            .ok ⟨df.cols, df.rows.filter (fun r => !values.contains (cellAt r i))⟩
          else
            .ok ⟨df.cols, df.rows.filter (fun r => values.contains (cellAt r i))⟩

/-- **C4.** On a non-empty DataFrame containing the column, each of the
six operators keeps exactly the rows whose cell in that column satisfies
the comparison, in their original order (`List.filter` preserves order);
a missing column or an unsupported operator raises `ValueError`. -/
theorem FilterByCondition_spec (df : DataFrame ℚ) (column_name operator : String)
    (threshold : ℚ) (i : Nat)
    (hne : df.isEmptyDF = false) :
    (df.colIdx column_name = some i →
      operator ∈ ["<", ">", "<=", ">=", "==", "!="] →
      FilterByCondition (some df) column_name operator threshold =
        .ok ⟨df.cols, df.rows.filter (fun r => condHolds operator (cellAt r i) threshold)⟩) ∧
    (df.colIdx column_name = none →
      FilterByCondition (some df) column_name operator threshold =
        .error ("Column " ++ column_name ++ " not found in DataFrame")) ∧
    (df.colIdx column_name = some i →
      operator ∉ ["<", ">", "<=", ">=", "==", "!="] →
      FilterByCondition (some df) column_name operator threshold =
        .error ("Unsupported operator " ++ operator)) := by
  refine ⟨?_, ?_, ?_⟩
  · intro hcol hop
    simp only [List.mem_cons, List.not_mem_nil, or_false] at hop
    rcases hop with rfl | rfl | rfl | rfl | rfl | rfl
    all_goals simp [FilterByCondition, hne, hcol, condHolds]
  · intro hcol
    simp [FilterByCondition, hne, hcol]
  · intro hcol hop
    simp only [List.mem_cons, List.mem_singleton, not_or] at hop
    obtain ⟨h1, h2, h3, h4, h5, h6, _⟩ := hop
    simp [FilterByCondition, hne, hcol, h1, h2, h3, h4, h5, h6]

/-- Witness for C4: a two-row frame filtered with `"<" 1` keeps only the
row below the threshold, and a missing column raises. -/
theorem FilterByCondition_spec_witness :
    (DataFrame.isEmptyDF ⟨["a"], [[0], [2]]⟩ = false) ∧
    FilterByCondition (some ⟨["a"], [[0], [2]]⟩) "a" "<" 1 =
      .ok ⟨["a"], [[0]]⟩ ∧
    FilterByCondition (some ⟨["a"], [[0], [2]]⟩) "b" "<" 1 =
      .error "Column b not found in DataFrame" := by
  have h := FilterByCondition_spec ⟨["a"], [[0], [2]]⟩ "a" "<" 1 0 (by decide)
  have h2 := FilterByCondition_spec ⟨["a"], [[0], [2]]⟩ "b" "<" 1 0 (by decide)
  refine ⟨by decide, ?_, ?_⟩
  · rw [h.1 (by decide) (by decide)]
    rfl
  · exact h2.2.1 (by decide)

/-- **C10.** Both filters deliver a fresh empty DataFrame on a `None` or
empty input, whatever the column, operator, threshold, value list or
inverse flag: the emptiness check precedes all validation. -/
theorem filters_none_empty_safe (d1 : Option (DataFrame ℚ)) (d2 : Option (DataFrame String))
    (column_name operator : String) (threshold : ℚ) (value_list : String) (inverse : Bool)
    (h1 : d1 = none ∨ ∃ df, d1 = some df ∧ df.isEmptyDF = true)
    (h2 : d2 = none ∨ ∃ df, d2 = some df ∧ df.isEmptyDF = true) :
    FilterByCondition d1 column_name operator threshold = .ok (emptyDF ℚ) ∧
    FilterByList d2 column_name value_list inverse = .ok (emptyDF String) := by
  constructor
  · rcases h1 with h | ⟨df, rfl, hdf⟩
    · rw [h]; rfl
    · simp [FilterByCondition, hdf]
  · rcases h2 with h | ⟨df, rfl, hdf⟩
    · rw [h]; rfl
    · simp [FilterByList, hdf]

/-- Witness for C10: a column-less one might-be-awkward frame, an absent
column, a junk operator and an empty value list still deliver `ok` empty
frames. -/
theorem filters_none_empty_safe_witness :
    ((none : Option (DataFrame ℚ)) = none ∨
      ∃ df, (none : Option (DataFrame ℚ)) = some df ∧ df.isEmptyDF = true) ∧
    ((some ⟨["a"], []⟩ : Option (DataFrame String)) = none ∨
      ∃ df, (some ⟨["a"], []⟩ : Option (DataFrame String)) = some df ∧ df.isEmptyDF = true) ∧
    FilterByCondition none "missing" "junk" 0 = .ok (emptyDF ℚ) ∧
    FilterByList (some ⟨["a"], []⟩) "missing" "" true = .ok (emptyDF String) := by
  have h := filters_none_empty_safe none (some ⟨["a"], []⟩) "missing" "junk" 0 "" true
    (Or.inl rfl) (Or.inr ⟨⟨["a"], []⟩, rfl, by decide⟩)
  exact ⟨Or.inl rfl, Or.inr ⟨⟨["a"], []⟩, rfl, by decide⟩, h.1, h.2⟩

/-! ### `DataIOLib` read nodes
(src/PandasPackage/FunctionLibraries/DataIOLib.py, lines 22-94)

Each reader guards `if not path or not path.strip(): raise
ValueError("File path is empty")` and otherwise hands the path to the
pandas reader.  The pandas call is an external effect; its invocation is
recorded as a `ReadEffect` value, so an `ok` result is exactly "a file
read was attempted". -/

inductive ReadEffect where
  | readCsv (path separator encoding : String) (header : Int)
  | readExcel (path sheet_name : String) (header : Int)
deriving DecidableEq, Repr

/-- `DataIOLib.ReadCSV`. -/
def ReadCSV (path separator encoding : String) (header : Int) :
    Except String ReadEffect :=
  if pyBlank path then .error "File path is empty"
  else .ok (.readCsv path separator encoding header)

/-- `DataIOLib.ReadExcel`. -/
def ReadExcel (path sheet_name : String) (header : Int) :
    Except String ReadEffect :=
  if pyBlank path then .error "File path is empty"
  else .ok (.readExcel path sheet_name header)

/-- `DataIOLib.ReadTXT` (a `pd.read_csv` with a caller-chosen separator). -/
def ReadTXT (path separator encoding : String) (header : Int) :
    Except String ReadEffect :=
  if pyBlank path then .error "File path is empty"
  else .ok (.readCsv path separator encoding header)

/-- `DataIOLib.ReadTSV` (a `pd.read_csv` with a fixed tab separator). -/
def ReadTSV (path encoding : String) (header : Int) :
    Except String ReadEffect :=
  if pyBlank path then .error "File path is empty"
  else .ok (.readCsv path "\t" encoding header)

/-- **C6.** Each reader raises `ValueError "File path is empty"` exactly
on an empty or whitespace-only path, and on such a path no read effect
is produced; on any other path the pandas read is attempted. -/
theorem readers_blank_path (path separator encoding sheet_name : String) (header : Int) :
    ((ReadCSV path separator encoding header = .error "File path is empty" ↔
        pyBlank path = true) ∧
      (pyBlank path = false →
        ReadCSV path separator encoding header =
          .ok (.readCsv path separator encoding header))) ∧
    ((ReadExcel path sheet_name header = .error "File path is empty" ↔
        pyBlank path = true) ∧
      (pyBlank path = false →
        ReadExcel path sheet_name header = .ok (.readExcel path sheet_name header))) ∧
    ((ReadTXT path separator encoding header = .error "File path is empty" ↔
        pyBlank path = true) ∧
      (pyBlank path = false →
        ReadTXT path separator encoding header =
          .ok (.readCsv path separator encoding header))) ∧
    ((ReadTSV path encoding header = .error "File path is empty" ↔
        pyBlank path = true) ∧
      (pyBlank path = false →
        ReadTSV path encoding header = .ok (.readCsv path "\t" encoding header))) := by
  by_cases hb : pyBlank path = true
  · refine ⟨⟨⟨fun _ => hb, fun _ => ?_⟩, fun hf => absurd hb (by simp [hf])⟩,
      ⟨⟨fun _ => hb, fun _ => ?_⟩, fun hf => absurd hb (by simp [hf])⟩,
      ⟨⟨fun _ => hb, fun _ => ?_⟩, fun hf => absurd hb (by simp [hf])⟩,
      ⟨⟨fun _ => hb, fun _ => ?_⟩, fun hf => absurd hb (by simp [hf])⟩⟩
    all_goals simp [ReadCSV, ReadExcel, ReadTXT, ReadTSV, hb]
  · have hb' : pyBlank path = false := by simpa using hb
    refine ⟨⟨⟨fun h => ?_, fun h => absurd h hb⟩, fun _ => ?_⟩,
      ⟨⟨fun h => ?_, fun h => absurd h hb⟩, fun _ => ?_⟩,
      ⟨⟨fun h => ?_, fun h => absurd h hb⟩, fun _ => ?_⟩,
      ⟨⟨fun h => ?_, fun h => absurd h hb⟩, fun _ => ?_⟩⟩
    all_goals simp_all [ReadCSV, ReadExcel, ReadTXT, ReadTSV, hb']

/-- Witness for C6: a whitespace-only path raises in all four readers;
a real path is read. -/
theorem readers_blank_path_witness :
    ReadCSV "  " "," "utf-8" 0 = .error "File path is empty" ∧
    ReadExcel "  " "0" 0 = .error "File path is empty" ∧
    ReadTXT "  " "\t" "utf-8" 0 = .error "File path is empty" ∧
    ReadTSV "  " "utf-8" 0 = .error "File path is empty" ∧
    ReadCSV "a.csv" "," "utf-8" 0 = .ok (.readCsv "a.csv" "," "utf-8" 0) := by
  have h := readers_blank_path "  " "," "utf-8" "0" 0
  have h2 := readers_blank_path "a.csv" "," "utf-8" "0" 0
  exact ⟨h.1.1.mpr (by decide), h.2.1.1.mpr (by decide),
    (readers_blank_path "  " "\t" "utf-8" "0" 0).2.2.1.1.mpr (by decide),
    h.2.2.2.1.mpr (by decide), h2.1.2 (by decide)⟩

/-! ### `UniversalDataProcessorLib.UniversalDataProcessor`
(src/PandasPackage/FunctionLibraries/DataProcessorLib.py, lines 34-160)

The body `exec`s/`eval`s arbitrary user Python; that execution is
external to any shallow embedding, so its outcome is an oracle
parameter: either it produces a value (possibly Python `None`) or it
raises.  The surrounding control flow — `None` short-circuit, blank-code
short-circuit, and the outer `except Exception` handler that delivers
the original data — is translated from the source. -/

inductive ExecOutcome (α : Type) where
  | ok (v : Option α)
  | raises
deriving DecidableEq, Repr

/-- `UniversalDataProcessor`: `run` is the outcome of executing
`function_code` on the data. -/
def UniversalDataProcessor {α : Type} (data : Option α) (function_code : String)
    (run : ExecOutcome α) : Option α :=
  match data with
  | none => none
  | some d =>
    if pyBlank function_code then some d
    else
      match run with
      | .ok v => v
      | .raises => some d

/-- **C7.** `UniversalDataProcessor` delivers `None` for `None` data,
the input unchanged for blank code, and the original input data when
the user code raises. -/
theorem UniversalDataProcessor_spec {α : Type} (data : Option α) (function_code : String)
    (run : ExecOutcome α) :
    (UniversalDataProcessor (none : Option α) function_code run = none) ∧
    (pyBlank function_code = true → UniversalDataProcessor data function_code run = data) ∧
    (run = ExecOutcome.raises → UniversalDataProcessor data function_code run = data) := by
  refine ⟨rfl, ?_, ?_⟩
  · intro hb
    cases data with
    | none => rfl
    | some d => simp [UniversalDataProcessor, hb]
  · intro hr
    subst hr
    cases data with
    | none => rfl
    | some d =>
      by_cases hb : pyBlank function_code = true
      · simp [UniversalDataProcessor, hb]
      · simp [UniversalDataProcessor, hb]

/-- Witness for C7: raising user code delivers the original frame, blank
code is the identity. -/
theorem UniversalDataProcessor_spec_witness :
    (pyBlank "  " = true) ∧
    UniversalDataProcessor (some (37 : Nat)) "  " (ExecOutcome.ok none) = some 37 ∧
    UniversalDataProcessor (some (37 : Nat)) "1/0" ExecOutcome.raises = some 37 ∧
    UniversalDataProcessor (none : Option Nat) "x" (ExecOutcome.ok (some 5)) = none := by
  have h1 := (UniversalDataProcessor_spec (some (37 : Nat)) "  " (ExecOutcome.ok none)).2.1 (by decide)
  have h2 := (UniversalDataProcessor_spec (some (37 : Nat)) "1/0" ExecOutcome.raises).2.2 rfl
  have h3 := (UniversalDataProcessor_spec (none : Option Nat) "x" (ExecOutcome.ok (some 5))).1
  exact ⟨by decide, h1, h2, h3⟩

/-! ### `PandasTableModel`
(src/PandasPackage/UI/_pandas_table_model.py)

Pages are Python ints (`Int`); rows of the underlying frame are counted
through the frame itself. -/

structure PandasTableModel where
  dataframe : DataFrame ℚ
  page_size : Int
  current_page : Int
  show_all : Bool
deriving DecidableEq, Repr

/-- `PandasTableModel.__init__`. -/
def mkTableModel (df : DataFrame ℚ) : PandasTableModel :=
  ⟨df, 10, 0, false⟩

/-- `len(self._dataframe)`. -/
def PandasTableModel.nRows (m : PandasTableModel) : Int :=
  (m.dataframe.rows.length : Int)

/-- `PandasTableModel.rowCount`. -/
def PandasTableModel.rowCount (m : PandasTableModel) : Int :=
  if m.show_all then m.nRows
  else max 0 (min m.page_size (m.nRows - m.current_page * m.page_size))

/-- `PandasTableModel.columnCount`. -/
def PandasTableModel.columnCount (m : PandasTableModel) : Int :=
  (m.dataframe.cols.length : Int)

/-- The `actual_row` computed by `PandasTableModel.data` (and
`headerData`) for a view row index. -/
def PandasTableModel.actualRow (m : PandasTableModel) (row : Int) : Int :=
  if m.show_all then row else m.current_page * m.page_size + row

/-- `PandasTableModel.setPageSize`: `-1` switches to show-all, any other
size is stored; the page always resets to 0. -/
def PandasTableModel.setPageSize (m : PandasTableModel) (size : Int) : PandasTableModel :=
  if size = -1 then { m with show_all := true, current_page := 0 }
  else { m with show_all := false, page_size := size, current_page := 0 }

/-- `PandasTableModel.setCurrentPage`: clamps below at 0 only. -/
def PandasTableModel.setCurrentPage (m : PandasTableModel) (page : Int) : PandasTableModel :=
  { m with current_page := max 0 page }

/-- **C9.** After `setPageSize size` (`size ≥ 1`) and `setCurrentPage
page`, `rowCount` is `max 0 (min size (nrows - page*size))` with `page`
clamped below at 0, and every cell request with a row below `rowCount`
and a column below `columnCount` resolves to an in-bounds `iloc`
position of the DataFrame. -/
theorem tableModel_pagination_safe (df : DataFrame ℚ) (size page row col : Int)
    (hsize : 1 ≤ size) (hrow0 : 0 ≤ row)
    (hrow : row < (((mkTableModel df).setPageSize size).setCurrentPage page).rowCount)
    (hcol0 : 0 ≤ col)
    (hcol : col < (((mkTableModel df).setPageSize size).setCurrentPage page).columnCount) :
    (((mkTableModel df).setPageSize size).setCurrentPage page).rowCount =
      max 0 (min size ((mkTableModel df).nRows - max 0 page * size)) ∧
    0 ≤ (((mkTableModel df).setPageSize size).setCurrentPage page).actualRow row ∧
    (((mkTableModel df).setPageSize size).setCurrentPage page).actualRow row <
      ((df.rows.length : Nat) : Int) ∧
    0 ≤ col ∧ col < ((df.cols.length : Nat) : Int) := by
  have hm1 : ¬size = -1 := by omega
  simp only [mkTableModel, PandasTableModel.setPageSize, hm1, if_neg, if_false,
    PandasTableModel.setCurrentPage, PandasTableModel.rowCount, PandasTableModel.nRows,
    PandasTableModel.columnCount, PandasTableModel.actualRow, Bool.false_eq_true] at *
  have hp : (0 : Int) ≤ max 0 page := le_max_left 0 page
  have hk : (0 : Int) ≤ max 0 page * size := mul_nonneg hp (by omega)
  constructor
  · trivial
  · refine ⟨by omega, ?_, hcol0, hcol⟩
    generalize hkk : max 0 page * size = k at *
    omega

/-- Witness for C9: three rows, page size 2, page 1: one row on the
page, and view cell (0,0) maps to frame row 2. -/
theorem tableModel_pagination_safe_witness :
    ((1 : Int) ≤ 2 ∧ (0 : Int) ≤ 0 ∧
      (0 : Int) < (((mkTableModel ⟨["a"], [[0], [1], [2]]⟩).setPageSize 2).setCurrentPage 1).rowCount ∧
      (0 : Int) ≤ 0 ∧
      (0 : Int) < (((mkTableModel ⟨["a"], [[0], [1], [2]]⟩).setPageSize 2).setCurrentPage 1).columnCount) ∧
    ((((mkTableModel ⟨["a"], [[0], [1], [2]]⟩).setPageSize 2).setCurrentPage 1).rowCount =
        max 0 (min 2 ((mkTableModel ⟨["a"], [[0], [1], [2]]⟩).nRows - max 0 1 * 2)) ∧
      0 ≤ (((mkTableModel ⟨["a"], [[0], [1], [2]]⟩).setPageSize 2).setCurrentPage 1).actualRow 0 ∧
      (((mkTableModel ⟨["a"], [[0], [1], [2]]⟩).setPageSize 2).setCurrentPage 1).actualRow 0 <
        ((([[0], [1], [2]] : List (List ℚ)).length : Nat) : Int) ∧
      (0 : Int) ≤ 0 ∧ (0 : Int) < (((["a"] : List String).length : Nat) : Int)) := by
  refine ⟨⟨by decide, by decide, by decide, by decide, by decide⟩, ?_⟩
  exact tableModel_pagination_safe ⟨["a"], [[0], [1], [2]]⟩ 2 1 0 0
    (by decide) (by decide) (by decide) (by decide) (by decide)

/-! ### `PropertiesDialogManager`
(src/PandasPackage/UI/UIDataAnalysisBaseNode.py, lines 29-81)

`_active_dialogs` is a dict from `id(node)` to a dialog object; dialog
object identity is modelled by a counter (`nextDialogId`) that mints a
fresh id for each `PropertiesDialog(parent=parent)` construction. -/

structure ManagerState where
  activeDialogs : List (Nat × Nat)
  currentDialog : Option Nat
  nextDialogId : Nat
deriving DecidableEq, Repr

/-- The dict lookup `self._active_dialogs[node_id]` (`none` when
`node_id not in self._active_dialogs`). -/
def ManagerState.dialogFor (s : ManagerState) (nodeId : Nat) : Option Nat :=
  (s.activeDialogs.find? (fun kv => kv.1 = nodeId)).map (fun kv => kv.2)

/-- `PropertiesDialogManager.get_or_create_dialog`: the updated state
and the returned dialog. -/
def get_or_create_dialog (s : ManagerState) (nodeId : Nat) : ManagerState × Nat :=
  match s.dialogFor nodeId with
  | some d => (s, d)
  | none =>
    ({ s with
        activeDialogs := s.activeDialogs ++ [(nodeId, s.nextDialogId)],
        nextDialogId := s.nextDialogId + 1 },
      s.nextDialogId)

/-- `PropertiesDialogManager._on_dialog_closed` (the slot connected to
`dialog.finished`). -/
def on_dialog_closed (s : ManagerState) (nodeId : Nat) : ManagerState :=
  match s.dialogFor nodeId with
  | none => s
  | some d =>
    { s with
        activeDialogs := s.activeDialogs.filter (fun kv => decide (¬kv.1 = nodeId)),
        currentDialog := if s.currentDialog = some d then none else s.currentDialog }

theorem find?_append_of_none {α : Type} {p : α → Bool} {l₁ l₂ : List α}
    (h : l₁.find? p = none) : (l₁ ++ l₂).find? p = l₂.find? p := by
  induction l₁ with
  | nil => rfl
  | cons x xs ih =>
    by_cases hx : p x = true
    · rw [List.find?_cons_of_pos _ hx] at h
      exact absurd h (by simp)
    · have hx' : ¬p x = true := hx
      rw [List.find?_cons_of_neg _ hx'] at h
      rw [List.cons_append, List.find?_cons_of_neg _ hx']
      exact ih h

theorem find?_filter_ne_none (l : List (Nat × Nat)) (nodeId : Nat) :
    (l.filter (fun kv => decide (¬kv.1 = nodeId))).find? (fun kv => decide (kv.1 = nodeId)) =
      none := by
  rw [List.find?_eq_none]
  intro kv hkv
  have := (List.mem_filter.mp hkv).2
  simpa using this

theorem gocd_none (s : ManagerState) (nodeId : Nat) (h : s.dialogFor nodeId = none) :
    get_or_create_dialog s nodeId =
      ({ s with
          activeDialogs := s.activeDialogs ++ [(nodeId, s.nextDialogId)],
          nextDialogId := s.nextDialogId + 1 },
        s.nextDialogId) := by
  unfold get_or_create_dialog
  rw [h]

theorem gocd_some (s : ManagerState) (nodeId d : Nat) (h : s.dialogFor nodeId = some d) :
    get_or_create_dialog s nodeId = (s, d) := by
  unfold get_or_create_dialog
  rw [h]

theorem odc_some (s : ManagerState) (nodeId d : Nat) (h : s.dialogFor nodeId = some d) :
    on_dialog_closed s nodeId =
      { s with
          activeDialogs := s.activeDialogs.filter (fun kv => decide (¬kv.1 = nodeId)),
          currentDialog := if s.currentDialog = some d then none else s.currentDialog } := by
  unfold on_dialog_closed
  rw [h]

/-- Closing the dialog of a node removes its map entry, clears it as
current exactly when it was current, and the next open mints a fresh
dialog. -/
theorem close_then_fresh (s1 : ManagerState) (nodeId d1 : Nat)
    (h1 : s1.dialogFor nodeId = some d1)
    (hlt : d1 < s1.nextDialogId) :
    (on_dialog_closed s1 nodeId).dialogFor nodeId = none ∧
    (on_dialog_closed s1 nodeId).currentDialog =
      (if s1.currentDialog = some d1 then none else s1.currentDialog) ∧
    (get_or_create_dialog (on_dialog_closed s1 nodeId) nodeId).2 ≠ d1 := by
  have hc := odc_some s1 nodeId d1 h1
  have hnone : (on_dialog_closed s1 nodeId).dialogFor nodeId = none := by
    rw [hc]
    unfold ManagerState.dialogFor
    rw [find?_filter_ne_none]
    rfl
  refine ⟨hnone, by rw [hc], ?_⟩
  rw [gocd_none _ _ hnone]
  have hnext : (on_dialog_closed s1 nodeId).nextDialogId = s1.nextDialogId := by
    rw [hc]
  simp only [hnext]
  omega

/-- **C8.** At most one dialog per node: a second `get_or_create_dialog`
for the same node returns the identical dialog and changes nothing;
after the dialog finishes, its entry is gone from the active-dialog map
(and it is cleared as the current dialog exactly if it was the current
one), and the next call mints a fresh dialog. -/
theorem dialog_manager_unique (s : ManagerState) (nodeId : Nat)
    (hid : ∀ kv ∈ s.activeDialogs, kv.2 < s.nextDialogId) :
    get_or_create_dialog (get_or_create_dialog s nodeId).1 nodeId =
      get_or_create_dialog s nodeId ∧
    (on_dialog_closed (get_or_create_dialog s nodeId).1 nodeId).dialogFor nodeId = none ∧
    (on_dialog_closed (get_or_create_dialog s nodeId).1 nodeId).currentDialog =
      (if ((get_or_create_dialog s nodeId).1).currentDialog =
          some (get_or_create_dialog s nodeId).2
        then none else ((get_or_create_dialog s nodeId).1).currentDialog) ∧
    (get_or_create_dialog
        (on_dialog_closed (get_or_create_dialog s nodeId).1 nodeId) nodeId).2 ≠
      (get_or_create_dialog s nodeId).2 := by
  have key : ((get_or_create_dialog s nodeId).1).dialogFor nodeId =
      some (get_or_create_dialog s nodeId).2 ∧
      (get_or_create_dialog s nodeId).2 < ((get_or_create_dialog s nodeId).1).nextDialogId := by
    rcases h : s.dialogFor nodeId with _ | d
    · rw [gocd_none s nodeId h]
      constructor
      · show (ManagerState.dialogFor _ nodeId) = _
        unfold ManagerState.dialogFor
        have hf : s.activeDialogs.find? (fun kv => decide (kv.1 = nodeId)) = none := by
          unfold ManagerState.dialogFor at h
          exact Option.map_eq_none'.mp h
        rw [find?_append_of_none hf]
        simp
      · exact Nat.lt_succ_self _
    · rw [gocd_some s nodeId d h]
      refine ⟨h, ?_⟩
      show d < s.nextDialogId
      unfold ManagerState.dialogFor at h
      rcases Option.map_eq_some'.mp h with ⟨kv, hfind, hkv2⟩
      have hmem := List.mem_of_find?_eq_some hfind
      have := hid kv hmem
      omega
  obtain ⟨h1, hlt⟩ := key
  obtain ⟨ha, hb, hfresh⟩ := close_then_fresh _ nodeId _ h1 hlt
  refine ⟨?_, ha, hb, hfresh⟩
  rw [gocd_some _ nodeId _ h1]

/-- Witness for C8: starting from the empty manager, opening node 5's
dialog twice returns the same dialog, closing removes it, and the next
open creates a distinct one. -/
theorem dialog_manager_unique_witness :
    (∀ kv ∈ (⟨[], none, 0⟩ : ManagerState).activeDialogs, kv.2 < 0) ∧
    (get_or_create_dialog (get_or_create_dialog ⟨[], none, 0⟩ 5).1 5 =
        get_or_create_dialog ⟨[], none, 0⟩ 5 ∧
      (on_dialog_closed (get_or_create_dialog ⟨[], none, 0⟩ 5).1 5).dialogFor 5 = none ∧
      (on_dialog_closed (get_or_create_dialog ⟨[], none, 0⟩ 5).1 5).currentDialog =
        (if ((get_or_create_dialog ⟨[], none, 0⟩ 5).1).currentDialog =
            some (get_or_create_dialog ⟨[], none, 0⟩ 5).2
          then none else ((get_or_create_dialog ⟨[], none, 0⟩ 5).1).currentDialog) ∧
      (get_or_create_dialog
          (on_dialog_closed (get_or_create_dialog ⟨[], none, 0⟩ 5).1 5) 5).2 ≠
        (get_or_create_dialog ⟨[], none, 0⟩ 5).2) := by
  refine ⟨by simp, ?_⟩
  exact dialog_manager_unique ⟨[], none, 0⟩ 5 (by simp)

/-! ### The `HyperExcelRead` node state
(src/PandasPackage/Nodes/HyperExcelReadNode.py)

A pin is a name plus a data-type string.  The host pin API
(`getUniqPinName`, `createOutputPin`, `getPinByName`, `pin.kill`) is
modelled from the spec's assumed interface: `getUniqPinName` returns
the requested name when no pin of the node carries it, otherwise the
first `name ++ toString idx` (idx = 1, 2, ...) not carried by any pin;
`createOutputPin` uniquifies the requested name the same way and
appends the pin; `getPinByName` searches input pins then output pins;
`kill` removes the pin from the node. -/

structure Pin where
  name : String
  dataType : String
deriving DecidableEq, Repr

structure NodeState where
  inputs : List Pin
  outputs : List Pin
  sheetNames : List String
  sheetPinMap : List (String × String)
  lastPath : String
deriving DecidableEq, Repr

/-- All pin names of the node (inputs and outputs). -/
def NodeState.allPinNames (s : NodeState) : List String :=
  (s.inputs ++ s.outputs).map (fun p => p.name)

/-- Modelled from the spec: the host engine's unique-name helper.  Tries
`name`, then `name ++ "1"`, `name ++ "2"`, ...; the fuel
`existing.length + 1` always suffices because the candidates are
pairwise distinct and `existing` is finite. -/
def uniqNameAux (existing : List String) (name : String) : Nat → Nat → String
  | 0, idx => name ++ toString idx
  | fuel + 1, idx =>
    let tmp := name ++ toString idx
    if tmp ∈ existing then uniqNameAux existing name fuel (idx + 1) else tmp

/-- Modelled from the spec: `getUniqNameFromList` — the requested name
if free, else the first indexed variant that is free. -/
def getUniqNameFromList (existing : List String) (name : String) : String :=
  if name ∈ existing then uniqNameAux existing name (existing.length + 1) 1 else name

/-- Modelled from the spec: `NodeBase.getUniqPinName`. -/
def NodeState.getUniqPinName (s : NodeState) (name : String) : String :=
  getUniqNameFromList s.allPinNames name

/-- Modelled from the spec: `NodeBase.createOutputPin` — the host
uniquifies the requested pin name against the node's pins and appends
the new pin to the outputs. -/
def NodeState.createOutputPin (s : NodeState) (name dataType : String) : NodeState :=
  { s with outputs := s.outputs ++ [⟨s.getUniqPinName name, dataType⟩] }

/-- Modelled from the spec: `NodeBase.getPinByName` — the first pin with
the name, inputs searched before outputs. -/
def NodeState.getPinByName (s : NodeState) (name : String) : Option Pin :=
  (s.inputs ++ s.outputs).find? (fun p => p.name = name)

/-- `pin = getPinByName(n); if pin and pin.dataType == "DataFramePin":
pin.kill()` — as used by `_updateOutputPins`. -/
def NodeState.killDataFramePin (s : NodeState) (name : String) : NodeState :=
  match s.getPinByName name with
  | none => s
  | some p =>
    if p.dataType = "DataFramePin" then
      if (s.inputs.find? (fun q => q.name = name)).isSome then
        { s with inputs := s.inputs.eraseP (fun q => q.name = name) }
      else
        { s with outputs := s.outputs.eraseP (fun q => q.name = name) }
    else s

/-- Python set `add`. -/
def setAdd (l : List String) (x : String) : List String :=
  if x ∈ l then l else l ++ [x]

/-- Python set `discard`. -/
def setDiscard (l : List String) (x : String) : List String :=
  l.filter (fun y => decide (¬y = x))

/-- Python dict assignment `m[k] = v` (overwrite or append). -/
def dictInsert (m : List (String × String)) (k v : String) : List (String × String) :=
  if m.any (fun kv => kv.1 = k) then
    m.map (fun kv => if kv.1 = k then (k, v) else kv)
  else m ++ [(k, v)]

/-- Python dict lookup `m.get(k)`. -/
def dictGet (m : List (String × String)) (k : String) : Option String :=
  (m.find? (fun kv => kv.1 = k)).map (fun kv => kv.2)

/-- The node's fixed input pins (`path`, `header`, `inExec`), from
`HyperExcelRead.__init__`; `inExec`/`outExec` are the host's default
exec-pin names. -/
def staticInputs : List Pin :=
  [⟨"path", "StringPin"⟩, ⟨"header", "IntPin"⟩, ⟨"inExec", "ExecPin"⟩]

/-- A freshly constructed `HyperExcelRead` node. -/
def initialNode : NodeState :=
  { inputs := staticInputs,
    outputs := [⟨"outExec", "ExecPin"⟩, ⟨"data", "DataFramePin"⟩],
    sheetNames := [], sheetPinMap := [], lastPath := "" }

/-- The naming loop of `_updateOutputPins` (lines 118-127): sanitize
each sheet name, uniquify against the node's pins (no pin is created
during this loop), collect the set of new pin names and the sheet-to-pin
dict. -/
def namingLoop (s : NodeState) : List String → List String → List (String × String) →
    List String × List (String × String)
  | [], acc, m => (acc, m)
  | sheet :: rest, acc, m =>
    let pn := s.getUniqPinName (sanitizePinName (some sheet))
    namingLoop s rest (setAdd acc pn) (dictInsert m sheet pn)

/-- The removal loop of `_updateOutputPins` (lines 129-134). -/
def killLoop (s : NodeState) : List String → NodeState
  | [] => s
  | n :: rest => killLoop (s.killDataFramePin n) rest

/-- The creation loop of `_updateOutputPins` (lines 136-145): for each
sheet, create its mapped pin unless the name was already a current pin
name (`current` is the pre-update snapshot). -/
def createLoop (s : NodeState) (m : List (String × String)) (current : List String) :
    List String → NodeState
  | [] => s
  | sheet :: rest =>
    match dictGet m sheet with
    | none => createLoop s m current rest
    | some pn =>
      if pn ∈ current then createLoop s m current rest
      else createLoop (s.createOutputPin pn "DataFramePin") m current rest

/-- `HyperExcelRead._updateOutputPins`.  Mirrors the source order:
snapshot the current DataFramePin names, kill or recreate the default
`"data"` pin, run the naming loop, kill the stale pins, create the new
pins, then store the tracking fields. -/
def updateOutputPins (s0 : NodeState) (sheet_names : List String) : NodeState :=
  let current0 :=
    ((s0.outputs.filter (fun p => p.dataType = "DataFramePin")).map
      (fun p => p.name)).foldl setAdd []
  let step1 :=
    if ¬sheet_names = [] then
      match s0.getPinByName "data" with
      | some p =>
        if p.dataType = "DataFramePin" then
          (s0.killDataFramePin "data", setDiscard current0 "data")
        else (s0, current0)
      | none => (s0, current0)
    else
      match s0.getPinByName "data" with
      | some p =>
        if p.dataType = "DataFramePin" then (s0, current0)
        else (s0.createOutputPin "data" "DataFramePin", setAdd current0 "data")
      | none => (s0.createOutputPin "data" "DataFramePin", setAdd current0 "data")
  let s1 := step1.1
  let current := step1.2
  let nm := namingLoop s1 sheet_names [] []
  let newNames := nm.1
  let m := nm.2
  let toRemove := current.filter (fun n => decide (¬n ∈ newNames) && decide (¬n = "data"))
  let s2 := killLoop s1 toRemove
  let s3 := createLoop s2 m current sheet_names
  { s3 with sheetNames := sheet_names, sheetPinMap := m }

/-- `HyperExcelRead.serialize` (the dynamic-pin bookkeeping it adds to
the host's template). -/
structure Template where
  sheetNames : List String
  sheetPinMap : List (String × String)
  lastPath : String
deriving DecidableEq, Repr

/-- `HyperExcelRead.serialize`. -/
def serialize (s : NodeState) : Template :=
  ⟨s.sheetNames, s.sheetPinMap, s.lastPath⟩

/-- One iteration of the pin-restoration loop of `postCreate`
(lines 322-333). -/
def postCreateStep (m : List (String × String)) (s : NodeState) (sheet : String) :
    NodeState :=
  match dictGet m sheet with
  | none => s
  | some pn =>
    if pn = "" then s
    else if (s.getPinByName pn).isSome then s
    else s.createOutputPin pn "DataFramePin"

/-- The pin-restoration loop of `postCreate`. -/
def postCreateLoop (m : List (String × String)) : NodeState → List String → NodeState
  | s, [] => s
  | s, sheet :: rest => postCreateLoop m (postCreateStep m s sheet) rest

/-- `HyperExcelRead.postCreate` on a node (pin values and the
`autoAffectPins` graph call are host-side and carry no dynamic-pin
bookkeeping). -/
def postCreate (s : NodeState) (t : Option Template) : NodeState :=
  match t with
  | none => s
  | some tpl =>
    let s1 :=
      if ¬tpl.sheetNames = [] then
        postCreateLoop tpl.sheetPinMap
          { s with sheetNames := tpl.sheetNames, sheetPinMap := tpl.sheetPinMap }
          tpl.sheetNames
      else s
    { s1 with lastPath := tpl.lastPath }

/-- **C2.** The claimed idempotence of `_updateOutputPins` fails on the
code: on a fresh node, a second call with the same one-sheet list
`["Sheet1"]` does not leave the pin set unchanged — the naming loop
re-runs `getUniqPinName` against the node's pins, which now include the
`"Sheet1"` pin the first call created, so the second call kills
`"Sheet1"` and creates `"Sheet11"`. -/
theorem updateOutputPins_not_idempotent :
    ((updateOutputPins initialNode ["Sheet1"]).outputs.map Pin.name =
      ["outExec", "Sheet1"]) ∧
    ((updateOutputPins (updateOutputPins initialNode ["Sheet1"]) ["Sheet1"]).outputs.map
        Pin.name = ["outExec", "Sheet11"]) ∧
    (updateOutputPins (updateOutputPins initialNode ["Sheet1"]) ["Sheet1"]).outputs ≠
      (updateOutputPins initialNode ["Sheet1"]).outputs := by
  refine ⟨by decide, by decide, by decide⟩

/-- **C3.** The claimed injectivity of the sheet-to-pin map fails on the
code: the pairwise-distinct sheet names `"A b"` and `"A_b"` both
sanitize to `"A_b"`, and the naming loop uniquifies before any new pin
exists, so both sheets are mapped to the same pin name `"A_b"` (and the
second creation is silently renamed to a stray pin `"A_b1"` that no
sheet maps to). -/
theorem sheetPinMap_not_injective :
    ("A b" : String) ≠ "A_b" ∧
    dictGet (updateOutputPins initialNode ["A b", "A_b"]).sheetPinMap "A b" =
      some "A_b" ∧
    dictGet (updateOutputPins initialNode ["A b", "A_b"]).sheetPinMap "A_b" =
      some "A_b" ∧
    ((updateOutputPins initialNode ["A b", "A_b"]).outputs.map Pin.name =
      ["outExec", "A_b", "A_b1"]) := by
  refine ⟨by decide, by decide, by decide, by decide⟩

theorem dictGet_eq_of_mem_nodup {m : List (String × String)} {kv : String × String}
    (hnodup : (m.map Prod.fst).Nodup) (hmem : kv ∈ m) :
    dictGet m kv.1 = some kv.2 := by
  induction m with
  | nil => cases hmem
  | cons hd tl ih =>
    rcases List.mem_cons.mp hmem with rfl | hmem'
    · unfold dictGet
      rw [List.find?_cons_of_pos _ (by simp)]
      rfl
    · have hkey : kv.1 ∈ tl.map Prod.fst := List.mem_map_of_mem _ hmem'
      have hne : ¬(hd.1 = kv.1) := by
        intro he
        rw [List.map_cons, List.nodup_cons] at hnodup
        exact hnodup.1 (he ▸ hkey)
      unfold dictGet
      rw [List.find?_cons_of_neg _ (by simpa using hne)]
      exact ih (by
        rw [List.map_cons, List.nodup_cons] at hnodup
        exact hnodup.2) hmem'

theorem postCreateStep_none (m : List (String × String)) (s : NodeState) (sheet : String)
    (hd : dictGet m sheet = none) : postCreateStep m s sheet = s := by
  unfold postCreateStep
  rw [hd]

theorem postCreateStep_some (m : List (String × String)) (s : NodeState) (sheet pn : String)
    (hd : dictGet m sheet = some pn) :
    postCreateStep m s sheet =
      (if pn = "" then s
       else if (s.getPinByName pn).isSome then s
       else s.createOutputPin pn "DataFramePin") := by
  unfold postCreateStep
  rw [hd]

theorem postCreateStep_shape (m : List (String × String)) (s : NodeState) (sheet : String) :
    (postCreateStep m s sheet).inputs = s.inputs ∧
    (postCreateStep m s sheet).sheetNames = s.sheetNames ∧
    (postCreateStep m s sheet).sheetPinMap = s.sheetPinMap ∧
    (postCreateStep m s sheet).lastPath = s.lastPath ∧
    ∃ extra, (postCreateStep m s sheet).outputs = s.outputs ++ extra ∧
      ∀ p ∈ extra, p.dataType = "DataFramePin" := by
  rcases hd : dictGet m sheet with _ | pn
  · rw [postCreateStep_none m s sheet hd]
    exact ⟨rfl, rfl, rfl, rfl, [], by simp, by simp⟩
  · rw [postCreateStep_some m s sheet pn hd]
    by_cases hpn : pn = ""
    · rw [if_pos hpn]
      exact ⟨rfl, rfl, rfl, rfl, [], by simp, by simp⟩
    · rw [if_neg hpn]
      by_cases hex : (s.getPinByName pn).isSome
      · rw [if_pos hex]
        exact ⟨rfl, rfl, rfl, rfl, [], by simp, by simp⟩
      · rw [if_neg hex]
        refine ⟨rfl, rfl, rfl, rfl, [⟨s.getUniqPinName pn, "DataFramePin"⟩], rfl, ?_⟩
        intro p hp
        have : p = ⟨s.getUniqPinName pn, "DataFramePin"⟩ := by simpa using hp
        rw [this]

theorem postCreateLoop_shape (m : List (String × String)) (names : List String)
    (s : NodeState) :
    (postCreateLoop m s names).inputs = s.inputs ∧
    (postCreateLoop m s names).sheetNames = s.sheetNames ∧
    (postCreateLoop m s names).sheetPinMap = s.sheetPinMap ∧
    (postCreateLoop m s names).lastPath = s.lastPath ∧
    ∃ extra, (postCreateLoop m s names).outputs = s.outputs ++ extra ∧
      ∀ p ∈ extra, p.dataType = "DataFramePin" := by
  induction names generalizing s with
  | nil => exact ⟨rfl, rfl, rfl, rfl, [], by simp [postCreateLoop], by simp⟩
  | cons sheet rest ih =>
    obtain ⟨hi, hn, hm, hl, e1, he1, hd1⟩ := postCreateStep_shape m s sheet
    obtain ⟨hi2, hn2, hm2, hl2, e2, he2, hd2⟩ := ih (postCreateStep m s sheet)
    refine ⟨by rw [show postCreateLoop m s (sheet :: rest) =
        postCreateLoop m (postCreateStep m s sheet) rest from rfl, hi2, hi],
      by rw [show postCreateLoop m s (sheet :: rest) =
        postCreateLoop m (postCreateStep m s sheet) rest from rfl, hn2, hn],
      by rw [show postCreateLoop m s (sheet :: rest) =
        postCreateLoop m (postCreateStep m s sheet) rest from rfl, hm2, hm],
      by rw [show postCreateLoop m s (sheet :: rest) =
        postCreateLoop m (postCreateStep m s sheet) rest from rfl, hl2, hl],
      e1 ++ e2, ?_, ?_⟩
    · rw [show postCreateLoop m s (sheet :: rest) =
        postCreateLoop m (postCreateStep m s sheet) rest from rfl, he2, he1,
        List.append_assoc]
    · intro p hp
      rcases List.mem_append.mp hp with h | h
      · exact hd1 p h
      · exact hd2 p h

theorem postCreateStep_ensures (m : List (String × String)) (s : NodeState) (sheet v : String)
    (hin : s.inputs = staticInputs)
    (hout : ∀ p ∈ s.outputs, p.dataType = "DataFramePin" ∨ p.name = "outExec")
    (hget : dictGet m sheet = some v) (hv : ¬v = "")
    (hvstat : v ∉ ["path", "header", "inExec", "outExec"]) :
    ∃ p ∈ (postCreateStep m s sheet).outputs, p.name = v ∧ p.dataType = "DataFramePin" := by
  rw [postCreateStep_some m s sheet v hget]
  rw [if_neg hv]
  by_cases hex : (s.getPinByName v).isSome
  · rw [if_pos hex]
    rcases hfind : s.getPinByName v with _ | p
    · rw [hfind] at hex; simp at hex
    · have hp := List.find?_some hfind
      have hpname : p.name = v := by simpa using hp
      have hpmem : p ∈ s.inputs ++ s.outputs := List.mem_of_find?_eq_some hfind
      rcases List.mem_append.mp hpmem with hmem | hmem
      · exfalso
        rw [hin] at hmem
        simp only [staticInputs, List.mem_cons, List.not_mem_nil, or_false] at hmem
        have hvmem : v ∈ ["path", "header", "inExec", "outExec"] := by
          rcases hmem with h | h | h
          · rw [← hpname, h]; decide
          · rw [← hpname, h]; decide
          · rw [← hpname, h]; decide
        exact hvstat hvmem
      · rcases hout p hmem with h | h
        · exact ⟨p, hmem, hpname, h⟩
        · exfalso
          exact hvstat (by rw [← hpname, h]; decide)
  · rw [if_neg hex]
    have hnone : s.getPinByName v = none := by
      rcases hfind : s.getPinByName v with _ | p
      · rfl
      · rw [hfind] at hex; simp at hex
    have hfree : v ∉ s.allPinNames := by
      intro hmem
      rcases List.mem_map.mp hmem with ⟨p, hp, hpname⟩
      have hcontra : (s.inputs ++ s.outputs).find? (fun q => q.name = v) ≠ none := by
        intro hfn
        rw [List.find?_eq_none] at hfn
        have hq := hfn p hp
        simp only [decide_eq_true_eq] at hq
        exact hq hpname
      exact hcontra hnone
    have huniq : s.getUniqPinName v = v := by
      unfold NodeState.getUniqPinName getUniqNameFromList
      rw [if_neg hfree]
    refine ⟨⟨v, "DataFramePin"⟩, ?_, rfl, rfl⟩
    show (⟨v, "DataFramePin"⟩ : Pin) ∈
      s.outputs ++ [(⟨s.getUniqPinName v, "DataFramePin"⟩ : Pin)]
    rw [huniq]
    simp

theorem postCreateLoop_ensures (m : List (String × String)) (names : List String)
    (s : NodeState)
    (hin : s.inputs = staticInputs)
    (hout : ∀ p ∈ s.outputs, p.dataType = "DataFramePin" ∨ p.name = "outExec") :
    ∀ k v, dictGet m k = some v → k ∈ names → ¬v = "" →
      v ∉ ["path", "header", "inExec", "outExec"] →
      ∃ p ∈ (postCreateLoop m s names).outputs, p.name = v ∧ p.dataType = "DataFramePin" := by
  induction names generalizing s with
  | nil =>
    intro k v _ hk
    cases hk
  | cons sheet rest ih =>
    intro k v hget hk hv hvstat
    obtain ⟨hi, _, _, _, e1, he1, hd1⟩ := postCreateStep_shape m s sheet
    have hin' : (postCreateStep m s sheet).inputs = staticInputs := by rw [hi, hin]
    have hout' : ∀ p ∈ (postCreateStep m s sheet).outputs,
        p.dataType = "DataFramePin" ∨ p.name = "outExec" := by
      intro p hp
      rw [he1] at hp
      rcases List.mem_append.mp hp with h | h
      · exact hout p h
      · exact Or.inl (hd1 p h)
    rcases List.mem_cons.mp hk with rfl | hk'
    · -- the pin exists after this step and persists through the rest
      obtain ⟨p, hp, hpn, hpd⟩ := postCreateStep_ensures m s k v hin hout hget hv hvstat
      obtain ⟨_, _, _, _, e2, he2, _⟩ := postCreateLoop_shape m rest (postCreateStep m s k)
      refine ⟨p, ?_, hpn, hpd⟩
      show p ∈ (postCreateLoop m (postCreateStep m s k) rest).outputs
      rw [he2]
      exact List.mem_append.mpr (Or.inl hp)
    · exact ih (postCreateStep m s sheet) hin' hout' k v hget hk' hv hvstat

/-- **C5.** Serialization round-trips the dynamic-pin bookkeeping: for a
node state whose bookkeeping is consistent (map keys are sheet names
with no duplicates, an empty sheet list means an empty map, and pin
names are non-empty and distinct from the node's static pins — all
invariants the node's own updates maintain), `postCreate` on a freshly
constructed node restores `_sheetNames`, `_sheetPinMap` and `_lastPath`
from `serialize`'s template and ensures a `DataFramePin` output pin for
every mapped pin name. -/
theorem serialize_postCreate_roundtrip (s : NodeState)
    (hkeys : ∀ kv ∈ s.sheetPinMap, kv.1 ∈ s.sheetNames)
    (hnodup : (s.sheetPinMap.map Prod.fst).Nodup)
    (hempty : s.sheetNames = [] → s.sheetPinMap = [])
    (hvals : ∀ kv ∈ s.sheetPinMap, ¬kv.2 = "" ∧
      kv.2 ∉ ["path", "header", "inExec", "outExec"]) :
    (postCreate initialNode (some (serialize s))).sheetNames = s.sheetNames ∧
    (postCreate initialNode (some (serialize s))).sheetPinMap = s.sheetPinMap ∧
    (postCreate initialNode (some (serialize s))).lastPath = s.lastPath ∧
    ∀ kv ∈ s.sheetPinMap,
      ∃ p ∈ (postCreate initialNode (some (serialize s))).outputs,
        p.name = kv.2 ∧ p.dataType = "DataFramePin" := by
  by_cases hn : s.sheetNames = []
  · have hm := hempty hn
    refine ⟨?_, ?_, ?_, ?_⟩
    · simp [postCreate, serialize, hn, initialNode]
    · simp [postCreate, serialize, hn, hm, initialNode]
    · simp [postCreate, serialize, hn]
    · intro kv hkv
      rw [hm] at hkv
      cases hkv
  · have hred : postCreate initialNode (some (serialize s)) =
        { postCreateLoop s.sheetPinMap
            { initialNode with sheetNames := s.sheetNames, sheetPinMap := s.sheetPinMap }
            s.sheetNames with
          lastPath := s.lastPath } := by
      simp [postCreate, serialize, hn]
    obtain ⟨hi, hnm, hmm, hl, extra, hext, hdt⟩ :=
      postCreateLoop_shape s.sheetPinMap s.sheetNames
        { initialNode with sheetNames := s.sheetNames, sheetPinMap := s.sheetPinMap }
    refine ⟨?_, ?_, ?_, ?_⟩
    · rw [hred]
      show (postCreateLoop _ _ _).sheetNames = s.sheetNames
      rw [hnm]
    · rw [hred]
      show (postCreateLoop _ _ _).sheetPinMap = s.sheetPinMap
      rw [hmm]
    · rw [hred]
    · intro kv hkv
      have hget := dictGet_eq_of_mem_nodup hnodup hkv
      have hout0 : ∀ p ∈ ({ initialNode with
            sheetNames := s.sheetNames, sheetPinMap := s.sheetPinMap } : NodeState).outputs,
          p.dataType = "DataFramePin" ∨ p.name = "outExec" := by
        intro p hp
        have hp2 : p ∈ initialNode.outputs := hp
        simp only [initialNode, List.mem_cons, List.not_mem_nil, or_false] at hp2
        rcases hp2 with h | h
        · exact Or.inr (by rw [h])
        · exact Or.inl (by rw [h])
      have hres := postCreateLoop_ensures s.sheetPinMap s.sheetNames
        { initialNode with sheetNames := s.sheetNames, sheetPinMap := s.sheetPinMap }
        rfl hout0 kv.1 kv.2 hget (hkeys kv hkv) (hvals kv hkv).1 (hvals kv hkv).2
      rw [hred]
      exact hres

/-- Witness for C5: a state with one sheet `"S one"` mapped to pin
`"S_one"` round-trips, and the restored node carries the
`DataFramePin` `"S_one"`. -/
theorem serialize_postCreate_roundtrip_witness :
    ((∀ kv ∈ [("S one", "S_one")], kv.1 ∈ ["S one"]) ∧
      (([("S one", "S_one")].map Prod.fst).Nodup) ∧
      ((["S one"] : List String) = [] → [("S one", "S_one")] = []) ∧
      (∀ kv ∈ [("S one", "S_one")], ¬kv.2 = "" ∧
        kv.2 ∉ ["path", "header", "inExec", "outExec"])) ∧
    ((postCreate initialNode (some (serialize
        ⟨[], [], ["S one"], [("S one", "S_one")], "/tmp/b.xlsx"⟩))).sheetNames =
      ["S one"] ∧
    (postCreate initialNode (some (serialize
        ⟨[], [], ["S one"], [("S one", "S_one")], "/tmp/b.xlsx"⟩))).sheetPinMap =
      [("S one", "S_one")] ∧
    (postCreate initialNode (some (serialize
        ⟨[], [], ["S one"], [("S one", "S_one")], "/tmp/b.xlsx"⟩))).lastPath =
      "/tmp/b.xlsx" ∧
    ∀ kv ∈ [("S one", "S_one")],
      ∃ p ∈ (postCreate initialNode (some (serialize
          ⟨[], [], ["S one"], [("S one", "S_one")], "/tmp/b.xlsx"⟩))).outputs,
        p.name = kv.2 ∧ p.dataType = "DataFramePin") := by
  refine ⟨⟨by decide, by decide, by decide, by decide⟩, ?_⟩
  exact serialize_postCreate_roundtrip
    ⟨[], [], ["S one"], [("S one", "S_one")], "/tmp/b.xlsx"⟩
    (by decide) (by decide) (by decide) (by decide)

end PandasPackage
